import Mathlib

set_option maxRecDepth 8000

/-!
Verification of the RAG (retrieval-augmented generation) core of the
learning-portal repository: the agent pipeline in
`app/core/agent/rag_agent.py` and the ingestion utilities in
`app/utils/document_loader.py`.

The Python code is shallowly embedded: pure string/list manipulation is
translated directly; calls onto external collaborators (the embedding
service, the vector store, the language-generation service, the PDF/OCR
libraries) are modelled as explicit parameters carrying the outcome of the
external call, with `Except Unit` standing for a raised Python exception.
Python machine integers are modelled as `Nat`/`Int` (no overflow is
involved anywhere in this code).
-/

/-! ## Python whitespace and small string helpers

`isPyWs` models the character class `\s` of Python regular expressions
(restricted to its ASCII part, which is the only part exercised by the
code's inputs), and likewise `str.strip()` blankness checks. -/

def isPyWs (c : Char) : Bool :=
  c = ' ' || c = '\t' || c = '\n' || c = '\r' || c = '\x0b' || c = '\x0c'

/-- Length of the maximal leading run of whitespace (the greedy `\s+`). -/
def wsRunLen : List Char → Nat
  | [] => 0
  | c :: rest => if isPyWs c then wsRunLen rest + 1 else 0

/-- Length of the maximal leading run of `#` characters (the greedy `#+`). -/
def hashRunLen : List Char → Nat
  | [] => 0
  | c :: rest => if c = '#' then hashRunLen rest + 1 else 0

/-- The lookahead `(?=#+\s+)`: one or more `#` followed by a whitespace. -/
def hashHeadingAhead (l : List Char) : Bool :=
  let k := hashRunLen l
  decide (1 ≤ k) && (match l.drop k with
    | [] => false
    | c :: _ => isPyWs c)

/-! ## Response streamer (`get_agent_response_stream`, rag_agent.py:221-256)

The answer is split by `re.split` on the pattern
  `(?<=[.!?])\s+|\n(?=#+\s+)`
(sentence-terminal punctuation followed by whitespace, or a newline that
precedes a markdown heading).  `split_go` scans the character list left to
right exactly as the regex engine does: at each position it first tries the
`(?<=[.!?])\s+` alternative (the lookbehind is the previously scanned
character `prev`), then the `\n(?=#+\s+)` alternative; on a match the
accumulated segment is emitted and scanning resumes after the consumed
characters.  `fuel` is an upper bound on the number of characters still to
scan (every step consumes at least one character), used only to make the
recursion structural; it is instantiated with the full length. -/

def split_go (fuel : Nat) (prev : Option Char) (cur : List Char)
    (acc : List Char) (chunks : List (List Char)) : List (List Char) :=
  match fuel, cur with
  | _, [] => (acc.reverse :: chunks).reverse
  | 0, _ :: _ => (acc.reverse :: chunks).reverse
  | fuel + 1, c :: rest =>
    if (match prev with
        | some p => (p = '.' || p = '!' || p = '?') && isPyWs c
        | none => false) then
      -- first alternative: consume the maximal whitespace run
      let k := wsRunLen (c :: rest)
      split_go fuel (((c :: rest).take k).getLast? ) ((c :: rest).drop k) [] (acc.reverse :: chunks)
    else if c = '\n' && hashHeadingAhead rest then
      -- second alternative: consume just the newline (the lookahead consumes nothing)
      split_go fuel (some '\n') rest [] (acc.reverse :: chunks)
    else
      split_go fuel (some c) rest (c :: acc) chunks

/-- `re.split(r'(?<=[.!?])\s+|\n(?=#+\s+)', answer)` (rag_agent.py:243). -/
def re_split_answer (answer : String) : List String :=
  (split_go answer.data.length none answer.data [] []).map fun l => String.mk l

/-- A server-sent event of the streaming endpoints, abstracting the wire
frames `data: {"content": ...}`, `data: {"score": ...}`, `data: {"done": true}`. -/
inductive StreamEvent where
  | content (text : String)
  | score (value : Int)
  | done
deriving DecidableEq

/-- `get_agent_response_stream` (rag_agent.py:221-256), as a function of the
answer text produced by `get_agent_response`: one `content` event per chunk
whose `strip()` is non-empty (each carrying the chunk plus a trailing
space), followed by the single `done` event. -/
def get_agent_response_stream (answer : String) : List StreamEvent :=
  ((re_split_answer answer).filter fun chunk =>
      chunk.data.any fun c => !(isPyWs c)).map
    (fun chunk => StreamEvent.content (chunk ++ " "))
  ++ [StreamEvent.done]

/-! ## Score extraction (`get_answer_analysis`, rag_agent.py:337-354)

`re.search(r'score[:\s]*(\d+)', content, re.IGNORECASE)` followed by
clamping of the parsed integer into [0, 100].  `search_score` scans for the
leftmost position at which the whole pattern matches, as `re.search` does.
Since the characters matched by `[:\s]*` are never digits, the greedy
maximal run needs no backtracking: the pattern matches at a position iff
`score` (case-insensitively) is followed by a maximal run of colons and
whitespace and then at least one digit. -/

def drop_colon_ws : List Char → List Char
  | [] => []
  | c :: rest => if c = ':' || isPyWs c then drop_colon_ws rest else c :: rest

def take_digits : List Char → List Char
  | [] => []
  | c :: rest => if c.isDigit then c :: take_digits rest else []

def digits_to_nat (ds : List Char) : Nat :=
  ds.foldl (fun acc c => acc * 10 + (c.toNat - '0'.toNat)) 0

/-- Case-insensitive match of the literal `score`, returning the remainder. -/
def match_score_word : List Char → Option (List Char)
  | c1 :: c2 :: c3 :: c4 :: c5 :: rest =>
    if c1.toLower = 's' && c2.toLower = 'c' && c3.toLower = 'o'
        && c4.toLower = 'r' && c5.toLower = 'e' then some rest else none
  | _ => none

/-- Try the whole pattern `score[:\s]*(\d+)` at the current position;
`some v` returns the integer value of the captured digit group. -/
def match_score_at (l : List Char) : Option Nat :=
  match match_score_word l with
  | none => none
  | some rest =>
    let ds := take_digits (drop_colon_ws rest)
    if ds.isEmpty then none else some (digits_to_nat ds)

/-- Leftmost match of the pattern, as performed by `re.search`. -/
def search_score : List Char → Option Nat
  | [] => none
  | c :: rest =>
    match match_score_at (c :: rest) with
    | some v => some v
    | none => search_score rest

/-- Score extraction and clamping of `get_answer_analysis`
(rag_agent.py:338-349): `score = 0`, then if the pattern matches the parsed
integer clamped below at 0 and above at 100. -/
def extract_score (content : String) : Int :=
  match search_score content.data with
  | none => 0
  | some v =>
    let s : Int := Int.ofNat v
    if s < 0 then 0 else if s > 100 then 100 else s

structure AnalysisResult where
  analysis : String
  score : Int
deriving DecidableEq

/-- `get_answer_analysis` (rag_agent.py:295-360).  The vector-store
initialisation and `similarity_search` happen before the `try` block, so a
failure there propagates (`Except.error`); the generation call happens
inside the `try`, so its failure is caught and mapped to the fixed error
analysis with score 0.  `retrieval` carries the outcome of the
similarity search (the page contents of the top-3 documents), `generation`
the outcome of the chain invocation on the assembled context. -/
def get_answer_analysis (retrieval : Except Unit (List String))
    (generation : String → Except Unit String) : Except Unit AnalysisResult :=
  match retrieval with
  | .error e => .error e
  | .ok context_docs =>
    let context := String.intercalate "\n\n" context_docs
    match generation context with
    | .error _ =>
      .ok { analysis := "I\x27m sorry, I encountered an error while analyzing your answer.",
            score := 0 }
    | .ok content => .ok { analysis := content, score := extract_score content }

/-- `get_streaming_analysis` (rag_agent.py:363-387): awaits
`get_answer_analysis` (so an exception from it propagates before any event
is emitted), then yields the analysis as one `content` event, one `score`
event, and the `done` event. -/
def get_streaming_analysis (retrieval : Except Unit (List String))
    (generation : String → Except Unit String) : Except Unit (List StreamEvent) :=
  match get_answer_analysis retrieval generation with
  | .error e => .error e
  | .ok r => .ok [StreamEvent.content r.analysis, StreamEvent.score r.score, StreamEvent.done]

/-- The event-sequence contract of the spec: zero-or-more `content` events,
optionally one `score` event, then exactly one `done` event, which is last. -/
def EventSeqOk (evs : List StreamEvent) : Prop :=
  (∃ (cs : List String) (opt : List StreamEvent),
    evs = cs.map StreamEvent.content ++ opt ++ [StreamEvent.done]
    ∧ (opt = [] ∨ ∃ n, opt = [StreamEvent.score n]))
  ∧ evs.count StreamEvent.done = 1
  ∧ evs.getLast? = some StreamEvent.done

/-! ## Agent state and the retrieve → generate pipeline (rag_agent.py:23-218)

`AgentState` mirrors the TypedDict of rag_agent.py:23-27 (the loosely typed
`agent_config` dict is modelled by the fields the code reads).  External
calls are modelled by outcome parameters: `search` is the outcome of
`init_vector_store` / `embed_query` / `client.search` (everything inside
the `try` of `retrieve_node`), `llm` the generation-service call of
`generate_response`, and `invoke` the whole `chain.invoke` of
`get_agent_response`. -/

structure AgentConfig where
  agent_name : Option String
  system_prompt : Option String
  qdrant_collection : Option String
deriving DecidableEq

structure Reference where
  text : String
  document : String
  page : Nat
deriving DecidableEq

structure AgentState where
  messages : List String
  context : List String
  references : List Reference
  agent_config : AgentConfig
deriving DecidableEq

/-- The `metadata` dict of a search hit's payload (keys read via `.get`). -/
structure HitMetadata where
  source : Option String
  page : Option Nat
deriving DecidableEq

/-- A search hit's payload; `payload = none` in `ScoredHit` covers both a
missing and an empty (falsy) payload dict. -/
structure HitPayload where
  page_content : Option String
  metadata : Option HitMetadata
deriving DecidableEq

structure ScoredHit where
  payload : Option HitPayload
deriving DecidableEq

/-- `str.split("/")`: split at every `/`, keeping empty parts (so the empty
string splits to `[""]`). -/
def split_slash_go : List Char → List Char → List (List Char)
  | [], acc => [acc.reverse]
  | c :: rest, acc =>
    if c = '/' then acc.reverse :: split_slash_go rest []
    else split_slash_go rest (c :: acc)

def py_split_slash (s : String) : List String :=
  (split_slash_go s.data []).map fun l => String.mk l

/-- `...split("/")[-1]` (rag_agent.py:85): `str.split` never returns an
empty list, so `[-1]` is its last element. -/
def basename_after_slash (s : String) : String :=
  (py_split_slash s).getLastD ""

/-- The reference dict built for one hit (rag_agent.py:82-87). -/
def reference_of (pc : String) (p : HitPayload) : Reference :=
  { text := pc.take 200 ++ "...",
    document := basename_after_slash ((p.metadata.bind HitMetadata.source).getD ""),
    page := (p.metadata.bind HitMetadata.page).getD 0 }

/-- The pairs `(page_content, payload)` of the hits that pass the
`hit.payload and "page_content" in hit.payload` guard (rag_agent.py:79-87),
in hit order; both `contexts` and `references` are built from them. -/
def retrieve_extract (hits : List ScoredHit) : List (String × HitPayload) :=
  hits.filterMap fun h => h.payload.bind fun p => p.page_content.map fun pc => (pc, p)

/-- `retrieve_node` (rag_agent.py:31-96).  `state["messages"][-1]` raises
`IndexError` on an empty message list (this happens before the `try`), so
the embedding returns `none` there; every outcome of the guarded external
calls — modelled by `search` — is mapped to a state. -/
def retrieve_node (state : AgentState) (search : Except Unit (List ScoredHit)) :
    Option AgentState :=
  match state.messages.getLast? with
  | none => none
  | some _last_message =>
    match search with
    | .error _ =>
      some { state with
             context := ["Error retrieving information from documents."],
             references := [] }
    | .ok hits =>
      if hits.isEmpty then
        some { state with
               context := ["No relevant information found in the documents."],
               references := [] }
      else
        let extracted := retrieve_extract hits
        some { state with
               context :=
                 if extracted.isEmpty then ["No readable content found in the documents."]
                 else extracted.map Prod.fst,
               references := extracted.map fun pr => reference_of pr.1 pr.2 }

/-- Default system prompt of `generate_response` (rag_agent.py:106-111). -/
def default_system_prompt : String :=
  "You are a helpful AI assistant specialized in analyzing information and answering questions. \n        Format your responses in markdown to make them visually appealing and easy to read.\n        Use the following context to answer the question.\n        \n        Context: {context}"

/-- `"\n\n".join(state["context"]) if state["context"] else "No context available."`
(rag_agent.py:126). -/
def generate_context (ctx : List String) : String :=
  if ctx.isEmpty then "No context available." else String.intercalate "\n\n" ctx

/-- The values the generation service receives from `generate_response`:
the system prompt template (rag_agent.py:114-115) and the two values of
`chain.invoke({"context": ..., "question": ...})` (rag_agent.py:134-137).
The state's earlier messages appear nowhere in it. -/
structure GenerationRequest where
  system_prompt : String
  context : String
  question : String
deriving DecidableEq

/-- The generation request assembled by `generate_response`
(rag_agent.py:99-137); `none` when `state["messages"][-1]` would raise. -/
def generation_request (state : AgentState) : Option GenerationRequest :=
  match state.messages.getLast? with
  | none => none
  | some q =>
    some { system_prompt :=
             (state.agent_config.system_prompt.getD default_system_prompt)
               ++ "\n\nContext: {context}",
           context := generate_context state.context,
           question := q }

/-- `generate_response` (rag_agent.py:99-141): invoke the generation
service on the assembled request and append the response content to the
messages. -/
def generate_response (llm : GenerationRequest → String) (state : AgentState) :
    Option AgentState :=
  (generation_request state).map fun req =>
    { state with messages := state.messages ++ [llm req] }

/-- One history item; rag_agent.py:186-190 extracts `item['content']` from
each dict item. -/
structure HistoryItem where
  content : String
  is_bot : Bool
deriving DecidableEq

def history_content (item : HistoryItem) : String := item.content

/-- Message-list initialisation of `get_agent_response`
(rag_agent.py:182-193): history contents in the supplied order, then the
current question. -/
def build_messages (history : List HistoryItem) (question : String) : List String :=
  history.map history_content ++ [question]

/-- The initial state of `get_agent_response` (rag_agent.py:196-201). -/
def initial_state (question : String) (config : AgentConfig)
    (history : List HistoryItem) : AgentState :=
  { messages := build_messages history question,
    context := [],
    references := [],
    agent_config := config }

structure AgentAnswer where
  answer : String
  references : List Reference
deriving DecidableEq

def apology_text : String :=
  "I\x27m sorry, I encountered an error while processing your question."

/-- `get_agent_response` (rag_agent.py:166-218).  `invoke` is the outcome
of `chain.invoke(state)` on the compiled retrieve → generate graph; the
whole `try` body — including the `result["messages"][-1]` lookup — is
guarded, and any exception yields the fixed apology with empty references. -/
def get_agent_response (question : String) (config : AgentConfig)
    (history : List HistoryItem)
    (invoke : AgentState → Except Unit AgentState) : AgentAnswer :=
  match invoke (initial_state question config history) with
  | .error _ => { answer := apology_text, references := [] }
  | .ok result =>
    match result.messages.getLast? with
    | none => { answer := apology_text, references := [] }
    | some answer => { answer := answer, references := result.references }

/-- The two-node LangGraph workflow of `create_agent` (rag_agent.py:144-163):
`retrieve` unconditionally followed by `generate`. -/
def run_pipeline (question : String) (config : AgentConfig)
    (history : List HistoryItem) (search : Except Unit (List ScoredHit))
    (llm : GenerationRequest → String) : Option AgentState :=
  (retrieve_node (initial_state question config history) search).bind
    (generate_response llm)

/-! ## Document loader (`app/utils/document_loader.py`)

Documents are modelled by the list of their pages' extracted text (one
string per page, in page order); the PDF library calls are replaced by
these page texts resp. by per-page OCR outcomes. -/

/-- An extracted passage with its metadata (document_loader.py:170-179,
243-252). -/
structure ExtractedDoc where
  page_content : String
  page : Nat
  extraction_method : String
deriving DecidableEq

/-- `extract_text_with_pypdf` (document_loader.py:150-184): keep page `i`
(1-based in the metadata) unless `not text or len(text) < 50`. -/
def extract_text_with_pypdf (pages : List String) : List ExtractedDoc :=
  pages.enum.filterMap fun it =>
    if it.2.isEmpty || it.2.length < 50 then none
    else some { page_content := it.2, page := it.1 + 1, extraction_method := "standard" }

/-- `has_sufficient_text` (document_loader.py:266-283).  The Python
comparison `pages_with_text >= max(1, total_pages * 0.25)` is exact dyadic
arithmetic (`total_pages * 0.25` is `total_pages / 4` with no rounding for
any realistic page count), hence equivalent to
`1 ≤ pages_with_text ∧ total_pages ≤ 4 * pages_with_text`. -/
def has_sufficient_text (documents : List ExtractedDoc) : Bool :=
  if documents.isEmpty then false
  else
    let total_pages := documents.length
    let pages_with_text :=
      (documents.filter fun doc => decide (100 < doc.page_content.length)).length
    decide (1 ≤ pages_with_text) && decide (total_pages ≤ 4 * pages_with_text)

inductive ExtractionChoice where
  | standard
  | ocr
  | skipped
deriving DecidableEq

/-- The per-document branch of `load_pdf_directory`
(document_loader.py:57-72): standard extraction when `regular_documents`
is truthy and sufficient, otherwise OCR when enabled, otherwise the
document is skipped. -/
def choose_extraction (pages : List String) (use_ocr : Bool) : ExtractionChoice :=
  let regular_documents := extract_text_with_pypdf pages
  if !regular_documents.isEmpty && has_sufficient_text regular_documents then
    ExtractionChoice.standard
  else if use_ocr then ExtractionChoice.ocr
  else ExtractionChoice.skipped

/-- Outcome of one iteration of the OCR loop body's external calls
(document_loader.py:222-236): `convert_from_path` or
`pytesseract.image_to_string` raising is `error`, an empty image list is
`noImages`, otherwise the OCR text of the page. -/
inductive OcrPageOutcome where
  | error
  | noImages
  | page (text : String)

/-- The `while True` loop of `extract_text_with_ocr`
(document_loader.py:212-259).  `page_num` is the page counter before the
`page_num += 1` of the iteration; `fuel` makes the recursion structural and
is maintained as `total_pages - page_num`, so `fuel = 0` is exactly the
`page_num > total_pages` exit.  The 100-page safety check sits, as in the
source, inside the per-page exception handler only. -/
def ocr_go (outcome : Nat → OcrPageOutcome) : Nat → Nat → List ExtractedDoc → List ExtractedDoc
  | 0, _page_num, documents => documents
  | fuel + 1, page_num, documents =>
    let pn := page_num + 1
    match outcome pn with
    | .error =>
      if 100 < pn then documents else ocr_go outcome fuel pn documents
    | .noImages => ocr_go outcome fuel pn documents
    | .page text =>
      if text.isEmpty || text.length < 50 then ocr_go outcome fuel pn documents
      else ocr_go outcome fuel pn
        (documents ++ [{ page_content := text, page := pn, extraction_method := "ocr" }])

/-- `extract_text_with_ocr` (document_loader.py:186-264) as a function of
the detected page count and the per-page outcomes. -/
def extract_text_with_ocr (total_pages : Nat) (outcome : Nat → OcrPageOutcome) :
    List ExtractedDoc :=
  ocr_go outcome total_pages 0 []

/-! ## Ingestion batching (`load_pdf_directory`, document_loader.py:94-140) -/

structure IngestPoint where
  id : Nat
  page_content : String
deriving DecidableEq

/-- The blank filter of a batch (document_loader.py:104-106): keep a chunk
text iff `text and text.strip()` is truthy. -/
def valid_texts (batch : List String) : List String :=
  batch.filter fun text => !text.isEmpty && text.data.any fun c => !(isPyWs c)

/-- The point-building loop (document_loader.py:120-133): `idx` enumerates
the filtered batch, each point gets id `idx + i` for batch offset `i`; the
`if text` double-check never filters anything further. -/
def points_go (i : Nat) : Nat → List String → List IngestPoint
  | _idx, [] => []
  | idx, text :: rest =>
    (if text.isEmpty then [] else [{ id := idx + i, page_content := text }])
      ++ points_go i (idx + 1) rest

def batch_points (batch : List String) (i : Nat) : List IngestPoint :=
  points_go i 0 (valid_texts batch)

/-- The batch loop `for i in range(0, len(chunks), batch_size)` with
`batch_size = 100` (document_loader.py:94-140).  `fuel` only makes the
recursion structural; any value `≥ chunks.length` (a bound on the number of
batches) reproduces the loop. -/
def load_go (fuel : Nat) (chunks : List String) (i : Nat) : List IngestPoint :=
  match fuel, chunks with
  | _, [] => []
  | 0, _ :: _ => []
  | fuel + 1, _ :: _ =>
    batch_points (chunks.take 100) i ++ load_go fuel (chunks.drop 100) (i + 100)

/-- All points upserted during one ingestion run, in upsert order. -/
def run_points (chunks : List String) : List IngestPoint :=
  load_go chunks.length chunks 0

def run_point_ids (chunks : List String) : List Nat :=
  (run_points chunks).map IngestPoint.id

/-! ## Concrete instances used by witnesses and counterexamples -/

/-- A ten-page document: one page of 201 characters, nine pages of 10
characters.  Only one of its ten pages exceeds 100 characters. -/
def ten_page_doc : List String :=
  String.mk (List.replicate 201 'a') :: List.replicate 9 (String.mk (List.replicate 10 'b'))

/-- A search hit whose passage text is `"abc"` and whose payload has no
metadata dict. -/
def c9_hit : ScoredHit := { payload := some { page_content := some "abc", metadata := none } }

def c9_state : AgentState := initial_state "q" ⟨none, none, none⟩ []

/-- Per-page OCR outcomes where page 101 raises and every other page
succeeds with 60 characters of text. -/
def c8_outcome : Nat → OcrPageOutcome :=
  fun p => if p = 101 then OcrPageOutcome.error
           else OcrPageOutcome.page (String.mk (List.replicate 60 'c'))

/-- Per-page OCR outcomes where every page succeeds with 60 characters. -/
def c8_all_good : Nat → OcrPageOutcome :=
  fun _ => OcrPageOutcome.page (String.mk (List.replicate 60 'c'))

/-! ## Helper lemmas -/

theorem extract_score_bounds (content : String) :
    0 ≤ extract_score content ∧ extract_score content ≤ 100 := by
  unfold extract_score
  cases h : search_score content.data with
  | none => exact ⟨by decide, by decide⟩
  | some v =>
    dsimp only
    constructor <;> split_ifs <;> omega

theorem generate_context_of_ne_nil {ctx : List String} (h : ctx ≠ []) :
    generate_context ctx = String.intercalate "\n\n" ctx := by
  unfold generate_context
  rw [if_neg]
  simp [List.isEmpty_iff, h]

theorem build_messages_getLast? (history : List HistoryItem) (question : String) :
    (build_messages history question).getLast? = some question :=
  List.getLast?_concat _

/-! ## C2 -/

/-- C2: for every generated analysis text the extracted score is an integer
in [0, 100]; the first case-insensitive `score`-then-digits match is parsed
and clamped ("score: 150" yields 100, the earlier of two matches wins), and
with no match (including "score: -20") the score is 0; the analysis result
returned by `get_answer_analysis` always carries a score in [0, 100]. -/
theorem c2_score_clamped :
    (∀ content : String, 0 ≤ extract_score content ∧ extract_score content ≤ 100)
    ∧ extract_score "Overall score: 150 points" = 100
    ∧ extract_score "score: -20" = 0
    ∧ extract_score "score: 7 and later score: 200" = 7
    ∧ ∀ (retrieval : Except Unit (List String)) (generation : String → Except Unit String)
        (r : AnalysisResult), get_answer_analysis retrieval generation = Except.ok r →
          0 ≤ r.score ∧ r.score ≤ 100 := by
  refine ⟨extract_score_bounds, by decide, by decide, by decide, ?_⟩
  intro retrieval generation r h
  cases retrieval with
  | error e => exact absurd h (by simp [get_answer_analysis])
  | ok docs =>
    unfold get_answer_analysis at h
    dsimp only at h
    cases hg : generation (String.intercalate "\n\n" docs) with
    | error e =>
      rw [hg] at h
      dsimp only at h
      injection h with h'
      subst h'
      exact ⟨by decide, by decide⟩
    | ok content =>
      rw [hg] at h
      dsimp only at h
      injection h with h'
      subst h'
      exact extract_score_bounds content

/-- Witness for C2's final clause at a concrete run. -/
theorem c2_score_clamped_witness :
    0 ≤ (AnalysisResult.mk "score: 88" 88).score
    ∧ (AnalysisResult.mk "score: 88" 88).score ≤ 100 :=
  c2_score_clamped.2.2.2.2 (Except.ok []) (fun _ => Except.ok "score: 88")
    (AnalysisResult.mk "score: 88" 88) rfl

/-! ## C4 -/

/-- C4: for any state with a non-empty message list (the pipeline always
supplies one), `retrieve_node` returns a state for every search outcome
(it never propagates an exception); zero hits yield the fixed
no-relevant-information marker as the single context entry with empty
references, and a retrieval error yields the fixed error marker as the
single context entry with empty references. -/
theorem c4_retrieve_markers (state : AgentState) (search : Except Unit (List ScoredHit))
    (h : state.messages ≠ []) :
    (∃ r, retrieve_node state search = some r)
    ∧ retrieve_node state (Except.ok []) =
        some { state with
               context := ["No relevant information found in the documents."],
               references := [] }
    ∧ ∀ e, retrieve_node state (Except.error e) =
        some { state with
               context := ["Error retrieving information from documents."],
               references := [] } := by
  have hl : state.messages.getLast?.isSome := List.getLast?_isSome.mpr h
  obtain ⟨last, hlast⟩ := Option.isSome_iff_exists.mp hl
  refine ⟨?_, ?_, ?_⟩
  · unfold retrieve_node
    rw [hlast]
    cases search with
    | error e => exact ⟨_, rfl⟩
    | ok hits =>
      simp only
      split
      · exact ⟨_, rfl⟩
      · exact ⟨_, rfl⟩
  · unfold retrieve_node
    rw [hlast]
    rfl
  · intro e
    unfold retrieve_node
    rw [hlast]

/-- Witness for C4 at a concrete state. -/
theorem c4_retrieve_markers_witness :
    (∃ r, retrieve_node (initial_state "q" ⟨none, none, none⟩ []) (Except.ok []) = some r)
    ∧ retrieve_node (initial_state "q" ⟨none, none, none⟩ []) (Except.ok []) =
        some { initial_state "q" ⟨none, none, none⟩ [] with
               context := ["No relevant information found in the documents."],
               references := [] }
    ∧ ∀ e, retrieve_node (initial_state "q" ⟨none, none, none⟩ []) (Except.error e) =
        some { initial_state "q" ⟨none, none, none⟩ [] with
               context := ["Error retrieving information from documents."],
               references := [] } :=
  c4_retrieve_markers (initial_state "q" ⟨none, none, none⟩ []) (Except.ok []) (by decide)

/-! ## C5 -/

/-- C5: for every question, agent configuration and history, if the
invocation of the retrieve → generate chain raises, `get_agent_response`
returns the fixed apology with empty references; the caller never receives
a raised exception from this stage. -/
theorem c5_generation_error_apology (question : String) (config : AgentConfig)
    (history : List HistoryItem) (invoke : AgentState → Except Unit AgentState)
    (h : invoke (initial_state question config history) = Except.error ()) :
    get_agent_response question config history invoke =
      { answer := apology_text, references := [] } := by
  unfold get_agent_response
  rw [h]

/-- Witness for C5 at a concrete failing invocation. -/
theorem c5_generation_error_apology_witness :
    get_agent_response "q" ⟨none, none, none⟩ [] (fun _ => Except.error ()) =
      { answer := apology_text, references := [] } :=
  c5_generation_error_apology "q" ⟨none, none, none⟩ [] (fun _ => Except.error ()) rfl

/-! ## C10 -/

/-- C10 (implicit): every state produced by `retrieve_node` has a non-empty
context list — each of its three outcome paths assigns at least one
element — so the `"No context available."` empty-context fallback of
`generate_response` is unreachable through the retrieve-then-generate
pipeline: the context string it builds is always the join of the entries. -/
theorem c10_context_nonempty (state : AgentState) (search : Except Unit (List ScoredHit))
    (r : AgentState) (h : retrieve_node state search = some r) :
    r.context ≠ [] ∧ generate_context r.context = String.intercalate "\n\n" r.context := by
  have hne : r.context ≠ [] := by
    unfold retrieve_node at h
    cases hlast : state.messages.getLast? with
    | none => rw [hlast] at h; exact absurd h (by simp)
    | some last =>
      rw [hlast] at h
      cases search with
      | error e =>
        simp only [Option.some.injEq] at h
        subst h
        simp
      | ok hits =>
        simp only at h
        split at h
        · simp only [Option.some.injEq] at h
          subst h
          simp
        · simp only [Option.some.injEq] at h
          subst h
          simp only
          split
          · simp
          · rename_i hex
            rw [Ne, List.map_eq_nil_iff]
            simpa [List.isEmpty_iff] using hex
  exact ⟨hne, generate_context_of_ne_nil hne⟩

/-- Witness for C10 at a concrete retrieval outcome. -/
theorem c10_context_nonempty_witness :
    ({ initial_state "q" ⟨none, none, none⟩ [] with
       context := ["No relevant information found in the documents."],
       references := [] } : AgentState).context ≠ []
    ∧ generate_context ({ initial_state "q" ⟨none, none, none⟩ [] with
        context := ["No relevant information found in the documents."],
        references := [] } : AgentState).context
      = String.intercalate "\n\n" ({ initial_state "q" ⟨none, none, none⟩ [] with
          context := ["No relevant information found in the documents."],
          references := [] } : AgentState).context :=
  c10_context_nonempty (initial_state "q" ⟨none, none, none⟩ []) (Except.ok []) _ (by decide)

/-! ## C1 -/

theorem eventSeqOk_contents_done (cs : List String) :
    EventSeqOk (cs.map StreamEvent.content ++ [StreamEvent.done]) := by
  refine ⟨⟨cs, [], by simp, Or.inl rfl⟩, ?_, ?_⟩
  · rw [List.count_append, List.count_eq_zero.mpr (by simp)]
    rfl
  · exact List.getLast?_concat _

theorem eventSeqOk_three (a : String) (s : Int) :
    EventSeqOk [StreamEvent.content a, StreamEvent.score s, StreamEvent.done] := by
  refine ⟨⟨[a], [StreamEvent.score s], by simp, Or.inr ⟨s, rfl⟩⟩, ?_, ?_⟩
  · simp [List.count_cons]
  · rfl

/-- C1 (amended): the response streamer always emits zero-or-more `content`
events terminated by exactly one final `done` event; the evaluator's
streaming variant emits its `content`, optional `score` and final `done`
events on every run in which its similarity search — performed outside the
guarded region of `get_answer_analysis` — succeeds (its generation call may
still fail: that is caught and streamed as usual). -/
theorem c1_stream_events_amended (answer : String)
    (retrieval : Except Unit (List String)) (generation : String → Except Unit String) :
    EventSeqOk (get_agent_response_stream answer)
    ∧ ∀ docs, retrieval = Except.ok docs →
        ∃ evs, get_streaming_analysis retrieval generation = Except.ok evs ∧ EventSeqOk evs := by
  constructor
  · unfold get_agent_response_stream
    rw [show (fun chunk => StreamEvent.content (chunk ++ " "))
          = StreamEvent.content ∘ (fun chunk : String => chunk ++ " ") from rfl,
        ← List.map_map]
    exact eventSeqOk_contents_done _
  · intro docs hdocs
    subst hdocs
    unfold get_streaming_analysis get_answer_analysis
    dsimp only
    cases hg : generation (String.intercalate "\n\n" docs) with
    | error e => exact ⟨_, rfl, eventSeqOk_three _ _⟩
    | ok content => exact ⟨_, rfl, eventSeqOk_three _ _⟩

/-- C1 counterexample: a run of the evaluator's streaming variant in which
the similarity search raises (vector-store initialisation and
`similarity_search` sit outside the `try` of `get_answer_analysis`) emits
no events at all — in particular no `done` event — refuting the claim that
every run of `get_streaming_analysis` ends with a `done` event. -/
theorem c1_streaming_analysis_counterexample :
    get_streaming_analysis (Except.error ()) (fun _ => Except.ok "All good.") =
      Except.error () := rfl

/-- Witness for C1's amended theorem at a concrete run. -/
theorem c1_stream_events_amended_witness :
    EventSeqOk (get_agent_response_stream "Hello there. Bye.")
    ∧ ∃ evs, get_streaming_analysis (Except.ok ["ctx"]) (fun _ => Except.ok "score: 42")
          = Except.ok evs ∧ EventSeqOk evs :=
  ⟨(c1_stream_events_amended "Hello there. Bye." (Except.ok ["ctx"])
      (fun _ => Except.ok "score: 42")).1,
   (c1_stream_events_amended "Hello there. Bye." (Except.ok ["ctx"])
      (fun _ => Except.ok "score: 42")).2 ["ctx"] rfl⟩

/-! ## C6 -/

/-- The generation request produced after `retrieve_node` on the initial
state does not depend on the history: it consists of the configured (or
default) system prompt template, the context determined by the search
outcome alone, and the current question. -/
theorem pipeline_request_history_free (question : String) (config : AgentConfig)
    (history : List HistoryItem) (search : Except Unit (List ScoredHit)) :
    (retrieve_node (initial_state question config history) search).bind generation_request
      = some { system_prompt :=
                 (config.system_prompt.getD default_system_prompt) ++ "\n\nContext: {context}",
               context := generate_context (match search with
                 | .error _ => ["Error retrieving information from documents."]
                 | .ok hits =>
                   if hits.isEmpty then ["No relevant information found in the documents."]
                   else if (retrieve_extract hits).isEmpty then
                     ["No readable content found in the documents."]
                   else (retrieve_extract hits).map Prod.fst),
               question := question } := by
  have hl : (build_messages history question).getLast? = some question :=
    build_messages_getLast? _ _
  unfold retrieve_node initial_state generation_request
  dsimp only
  rw [hl]
  cases search with
  | error e =>
    dsimp only [Option.bind]
    rw [hl]
  | ok hits =>
    by_cases hi : hits.isEmpty
    · simp [hi, Option.bind, hl]
    · by_cases hx : (retrieve_extract hits).isEmpty
      · simp [hi, hx, Option.bind, hl]
      · simp [hi, hx, Option.bind, hl]

/-- C6 counterexample: two runs that differ only in a (non-empty) supplied
history produce the identical generation request — the request does not
depend on the history items, refuting the claim that they are threaded into
the conversation value passed to the generation service. -/
theorem c6_history_counterexample :
    ([⟨"Alpha", false⟩] : List HistoryItem) ≠ [⟨"Beta", false⟩]
    ∧ (retrieve_node (initial_state "What is X?" ⟨none, none, none⟩ [⟨"Alpha", false⟩])
          (Except.ok [])).bind generation_request
      = (retrieve_node (initial_state "What is X?" ⟨none, none, none⟩ [⟨"Beta", false⟩])
          (Except.ok [])).bind generation_request := by
  exact ⟨by decide, by decide⟩

/-- C6 (amended): the supplied history items are placed, content extracted
and oldest first with no truncation, into the state's message list — but
the generation request assembled for the generation service contains only
the system prompt, the retrieved context and the final question, so it does
not depend on any history item. -/
theorem c6_history_amended (question : String) (config : AgentConfig)
    (history history2 : List HistoryItem) (search : Except Unit (List ScoredHit)) :
    (initial_state question config history).messages
        = history.map history_content ++ [question]
    ∧ (retrieve_node (initial_state question config history) search).bind generation_request
        = (retrieve_node (initial_state question config history2) search).bind generation_request :=
  ⟨rfl, by rw [pipeline_request_history_free, pipeline_request_history_free]⟩

/-! ## C9 -/

/-- C9 counterexample: for a hit whose passage text is `"abc"`, the
reference's excerpt is `"abc..."` — the first 200 characters of the passage
*followed by `"..."`* — not the first 200 characters themselves as the
claim states. -/
theorem c9_excerpt_counterexample :
    ((retrieve_node c9_state (Except.ok [c9_hit])).map fun r =>
        r.references.map Reference.text) = some ["abc..."]
    ∧ ("abc..." : String) ≠ ("abc" : String).take 200 := by
  exact ⟨by decide, by decide⟩

/-- C9 (amended): for every search hit with payload text present, the
produced reference's excerpt is the first 200 characters of the passage
text with `"..."` appended; its document field is the source filename
stripped of any path (the substring after the last `/`, defaulting to the
empty string when no source is present) and its page field defaults to 0
when the payload has no page number. -/
theorem c9_reference_fields_amended (state : AgentState) (hits : List ScoredHit)
    (r : AgentState) (h : retrieve_node state (Except.ok hits) = some r) :
    r.references = (retrieve_extract hits).map fun pr =>
      { text := pr.1.take 200 ++ "...",
        document := (py_split_slash ((pr.2.metadata.bind HitMetadata.source).getD "")).getLastD "",
        page := (pr.2.metadata.bind HitMetadata.page).getD 0 } := by
  unfold retrieve_node at h
  cases hlast : state.messages.getLast? with
  | none => rw [hlast] at h; exact absurd h (by simp)
  | some last =>
    rw [hlast] at h
    dsimp only at h
    by_cases hi : hits.isEmpty
    · rw [if_pos hi] at h
      injection h with h'
      subst h'
      have : hits = [] := List.isEmpty_iff.mp hi
      subst this
      rfl
    · rw [if_neg hi] at h
      injection h with h'
      subst h'
      rfl

/-- Witness for C9's amended theorem at a concrete hit. -/
theorem c9_reference_fields_amended_witness :
    ({ c9_state with
       context := ["abc"],
       references := [{ text := "abc...", document := "", page := 0 }] } : AgentState).references
      = (retrieve_extract [c9_hit]).map fun pr =>
          { text := pr.1.take 200 ++ "...",
            document := (py_split_slash ((pr.2.metadata.bind HitMetadata.source).getD "")).getLastD "",
            page := (pr.2.metadata.bind HitMetadata.page).getD 0 } :=
  c9_reference_fields_amended c9_state [c9_hit] _ (by decide)

/-! ## C3 -/

theorem keep_pred_eq (t : String) :
    (!(t.isEmpty || decide (t.length < 50))) = decide (50 ≤ t.length) := by
  by_cases h : 50 ≤ t.length
  · have hlt : ¬ (t.length < 50) := by omega
    have hem : t.isEmpty = false := by
      cases he : t.isEmpty
      · rfl
      · exfalso
        have ht : t = "" := (String.isEmpty_iff t).mp he
        subst ht
        rw [String.length_empty] at h
        omega
    simp [h, hlt, hem]
  · have hlt : t.length < 50 := by omega
    simp [h, hlt]

theorem pypdf_enumFrom_map_content (n : Nat) (pages : List String) :
    ((List.enumFrom n pages).filterMap fun it =>
        if it.2.isEmpty || it.2.length < 50 then none
        else some ({ page_content := it.2, page := it.1 + 1,
                     extraction_method := "standard" } : ExtractedDoc)).map
      ExtractedDoc.page_content
    = pages.filter fun t => !(t.isEmpty || decide (t.length < 50)) := by
  induction pages generalizing n with
  | nil => rfl
  | cons t rest ih =>
    show (List.filterMap _ ((n, t) :: List.enumFrom (n + 1) rest)).map _ = _
    rw [List.filterMap_cons, List.filter_cons]
    cases h : (t.isEmpty || decide (t.length < 50)) with
    | true =>
      have ih' := ih (n + 1)
      simp at ih'
      simp [h, ih']
    | false =>
      have ih' := ih (n + 1)
      simp at ih'
      simp [h, ih']

theorem pypdf_map_content (pages : List String) :
    (extract_text_with_pypdf pages).map ExtractedDoc.page_content
      = pages.filter fun t => decide (50 ≤ t.length) := by
  unfold extract_text_with_pypdf
  rw [show pages.enum = List.enumFrom 0 pages from rfl, pypdf_enumFrom_map_content]
  exact List.filter_congr fun t _ => keep_pred_eq t

/-- C3 counterexample: a ten-page document with exactly one page of more
than 100 characters (one of ten is below the claimed 25% threshold, so the
claim demands the OCR fallback), for which the code nevertheless judges
standard extraction sufficient and does not use OCR — the nine short pages
are discarded by the per-page 50-character filter before the 25% rule is
evaluated. -/
theorem c3_sufficiency_counterexample :
    (ten_page_doc.filter fun t => decide (100 < t.length)).length = 1
    ∧ ten_page_doc.length = 10
    ∧ ¬ (10 ≤ 4 * 1)
    ∧ choose_extraction ten_page_doc true = ExtractionChoice.standard := by
  exact ⟨by decide, by decide, by decide, by decide⟩

/-- C3 (amended): standard extraction is judged sufficient exactly when, of
the pages *retained by standard extraction* (those whose text has at least
50 characters), at least one exists and at least 25% individually exceed
100 characters; OCR is attempted for the whole document precisely when this
fails and OCR is enabled.  A 10-page document with one page over 100
characters triggers the OCR fallback only if enough of its other pages pass
the 50-character retention filter. -/
theorem c3_sufficiency_amended (pages : List String) (use_ocr : Bool) :
    (choose_extraction pages use_ocr = ExtractionChoice.standard
      ↔ (1 ≤ ((pages.filter fun t => decide (50 ≤ t.length)).filter fun t =>
                decide (100 < t.length)).length
          ∧ (pages.filter fun t => decide (50 ≤ t.length)).length
              ≤ 4 * ((pages.filter fun t => decide (50 ≤ t.length)).filter fun t =>
                      decide (100 < t.length)).length))
    ∧ (choose_extraction pages use_ocr = ExtractionChoice.ocr
      ↔ (¬ (1 ≤ ((pages.filter fun t => decide (50 ≤ t.length)).filter fun t =>
                  decide (100 < t.length)).length
            ∧ (pages.filter fun t => decide (50 ≤ t.length)).length
                ≤ 4 * ((pages.filter fun t => decide (50 ≤ t.length)).filter fun t =>
                        decide (100 < t.length)).length)
          ∧ use_ocr = true)) := by
  have hmap := pypdf_map_content pages
  have hlen : (extract_text_with_pypdf pages).length
      = (pages.filter fun t => decide (50 ≤ t.length)).length := by
    rw [← hmap, List.length_map]
  have hcount : ((extract_text_with_pypdf pages).filter fun d =>
        decide (100 < d.page_content.length)).length
      = ((pages.filter fun t => decide (50 ≤ t.length)).filter fun t =>
          decide (100 < t.length)).length := by
    rw [← hmap]
    rw [List.filter_map]
    rw [List.length_map]
    rfl
  have hempty : (extract_text_with_pypdf pages).isEmpty
      = (pages.filter fun t => decide (50 ≤ t.length)).isEmpty := by
    cases hx : extract_text_with_pypdf pages with
    | nil =>
      rw [hx] at hmap
      simp only [List.map_nil] at hmap
      rw [← hmap]
      rfl
    | cons d ds =>
      rw [hx] at hmap
      simp only [List.map_cons] at hmap
      rw [← hmap]
      rfl
  -- the code's standard-branch condition, rewritten through the above
  have hcond : (!(extract_text_with_pypdf pages).isEmpty
        && has_sufficient_text (extract_text_with_pypdf pages)) = true
      ↔ (1 ≤ ((pages.filter fun t => decide (50 ≤ t.length)).filter fun t =>
                decide (100 < t.length)).length
          ∧ (pages.filter fun t => decide (50 ≤ t.length)).length
              ≤ 4 * ((pages.filter fun t => decide (50 ≤ t.length)).filter fun t =>
                      decide (100 < t.length)).length) := by
    unfold has_sufficient_text
    by_cases he : (extract_text_with_pypdf pages).isEmpty
    · have hk : (pages.filter fun t => decide (50 ≤ t.length)) = [] := by
        have := hempty ▸ he
        exact List.isEmpty_iff.mp this
      rw [hk]
      simp [he]
    · have he' : (extract_text_with_pypdf pages).isEmpty = false :=
        Bool.eq_false_iff.mpr he
      simp [he', hcount, hlen]
  constructor
  · unfold choose_extraction
    constructor
    · intro h
      by_cases hc : (!(extract_text_with_pypdf pages).isEmpty
          && has_sufficient_text (extract_text_with_pypdf pages)) = true
      · exact hcond.mp hc
      · exfalso
        rw [if_neg (by simp [hc])] at h
        cases use_ocr with
        | true => simp at h
        | false => simp at h
    · intro h
      rw [if_pos (by exact hcond.mpr h)]
  · unfold choose_extraction
    constructor
    · intro h
      by_cases hc : (!(extract_text_with_pypdf pages).isEmpty
          && has_sufficient_text (extract_text_with_pypdf pages)) = true
      · exfalso
        rw [if_pos hc] at h
        simp at h
      · refine ⟨fun hs => hc (hcond.mpr hs), ?_⟩
        rw [if_neg (by simp [hc])] at h
        cases use_ocr with
        | true => rfl
        | false => simp at h
    · rintro ⟨hns, hu⟩
      subst hu
      rw [if_neg (fun hc => hns (hcond.mp hc))]
      rfl

/-! ## C7 -/

theorem points_go_mem_bounds (i : Nat) :
    ∀ (ts : List String) (idx : Nat) (p : IngestPoint),
      p ∈ points_go i idx ts → idx + i ≤ p.id ∧ p.id < idx + i + ts.length := by
  intro ts
  induction ts with
  | nil => intro idx p hp; exact absurd hp (by simp [points_go])
  | cons t rest ih =>
    intro idx p hp
    unfold points_go at hp
    rw [List.mem_append] at hp
    cases hp with
    | inl hhead =>
      by_cases he : t.isEmpty
      · rw [if_pos he] at hhead
        exact absurd hhead (by simp)
      · rw [if_neg he] at hhead
        have : p = { id := idx + i, page_content := t } := by
          simpa using hhead
        subst this
        simp only [List.length_cons]
        omega
    | inr htail =>
      have := ih (idx + 1) p htail
      simp only [List.length_cons]
      omega

theorem points_go_sorted (i : Nat) :
    ∀ (ts : List String) (idx : Nat),
      (points_go i idx ts).Pairwise fun p q => p.id < q.id := by
  intro ts
  induction ts with
  | nil => intro idx; simp [points_go]
  | cons t rest ih =>
    intro idx
    unfold points_go
    rw [List.pairwise_append]
    refine ⟨?_, ih (idx + 1), ?_⟩
    · by_cases he : t.isEmpty
      · rw [if_pos he]; exact List.Pairwise.nil
      · rw [if_neg he]; simp
    · intro a ha b hb
      have hbb := points_go_mem_bounds i rest (idx + 1) b hb
      by_cases he : t.isEmpty
      · rw [if_pos he] at ha
        exact absurd ha (by simp)
      · rw [if_neg he] at ha
        have : a = { id := idx + i, page_content := t } := by simpa using ha
        subst this
        show idx + i < b.id
        omega

theorem batch_points_mem_bounds (batch : List String) (i : Nat) (p : IngestPoint)
    (hp : p ∈ batch_points batch i) : i ≤ p.id ∧ p.id < i + (valid_texts batch).length := by
  have := points_go_mem_bounds i (valid_texts batch) 0 p hp
  omega

theorem valid_texts_length_le (batch : List String) :
    (valid_texts batch).length ≤ batch.length :=
  List.length_filter_le _ _

theorem load_go_mem_lb :
    ∀ (fuel : Nat) (chunks : List String) (i : Nat) (p : IngestPoint),
      p ∈ load_go fuel chunks i → i ≤ p.id := by
  intro fuel
  induction fuel with
  | zero =>
    intro chunks i p hp
    cases chunks with
    | nil => exact absurd hp (by simp [load_go])
    | cons c rest => exact absurd hp (by simp [load_go])
  | succ fuel ih =>
    intro chunks i p hp
    cases chunks with
    | nil => exact absurd hp (by simp [load_go])
    | cons c rest =>
      unfold load_go at hp
      rw [List.mem_append] at hp
      cases hp with
      | inl h => exact (batch_points_mem_bounds _ i p h).1
      | inr h =>
        have := ih _ _ p h
        omega

theorem load_go_sorted :
    ∀ (fuel : Nat) (chunks : List String) (i : Nat),
      (load_go fuel chunks i).Pairwise fun p q => p.id < q.id := by
  intro fuel
  induction fuel with
  | zero =>
    intro chunks i
    cases chunks with
    | nil => simp [load_go]
    | cons c rest => simp [load_go]
  | succ fuel ih =>
    intro chunks i
    cases chunks with
    | nil => simp [load_go]
    | cons c rest =>
      unfold load_go
      rw [List.pairwise_append]
      refine ⟨points_go_sorted i _ 0, ih _ _, ?_⟩
      intro a ha b hb
      have hab := batch_points_mem_bounds _ i a ha
      have hv : (valid_texts ((c :: rest).take 100)).length ≤ 100 := by
        have h1 := valid_texts_length_le ((c :: rest).take 100)
        have h2 : ((c :: rest).take 100).length ≤ 100 := by
          rw [List.length_take]
          omega
        omega
      have hbl := load_go_mem_lb fuel ((c :: rest).drop 100) (i + 100) b hb
      omega

theorem points_go_get (i : Nat) :
    ∀ (ts : List String) (idx j : Nat) (p : IngestPoint),
      (∀ t ∈ ts, t.isEmpty = false) →
      (points_go i idx ts).get? j = some p → p.id = idx + i + j := by
  intro ts
  induction ts with
  | nil => intro idx j p _ hp; simp [points_go] at hp
  | cons t rest ih =>
    intro idx j p hne hp
    have hte : t.isEmpty = false := hne t (List.mem_cons_self t rest)
    unfold points_go at hp
    rw [if_neg (by simp [hte])] at hp
    cases j with
    | zero =>
      simp only [List.singleton_append, List.get?] at hp
      injection hp with hp'
      subst hp'
      show idx + i = idx + i + 0
      omega
    | succ j =>
      simp only [List.singleton_append, List.get?] at hp
      have := ih (idx + 1) j p (fun u hu => hne u (List.mem_cons_of_mem t hu)) hp
      omega

theorem points_go_length_le (i : Nat) :
    ∀ (ts : List String) (idx : Nat), (points_go i idx ts).length ≤ ts.length := by
  intro ts
  induction ts with
  | nil => intro idx; simp [points_go]
  | cons t rest ih =>
    intro idx
    unfold points_go
    rw [List.length_append]
    have := ih (idx + 1)
    by_cases he : t.isEmpty
    · rw [if_pos he]
      simp only [List.length_nil, List.length_cons]
      have h0 : ([] : List IngestPoint).length = 0 := rfl
      omega
    · rw [if_neg he]
      simp only [List.length_cons, List.length_nil]
      omega

theorem valid_texts_not_empty (batch : List String) :
    ∀ t ∈ valid_texts batch, t.isEmpty = false := by
  intro t ht
  have := List.mem_filter.mp ht
  have hb := this.2
  cases he : t.isEmpty
  · rfl
  · rw [he] at hb; simp at hb

/-- C7: within one ingestion run, every upserted point's identifier equals
its batch's starting offset plus its intra-batch index after blank-text
filtering; the identifiers of the whole run are pairwise distinct; and a
batch of up to 100 chunks contributes at most `batch.length ≤ 100` points,
whose identifiers lie in the half-open range starting at its offset. -/
theorem c7_point_ids (chunks : List String) :
    (run_point_ids chunks).Nodup
    ∧ (∀ (batch : List String) (offset idx : Nat) (p : IngestPoint),
        (batch_points batch offset).get? idx = some p → p.id = offset + idx)
    ∧ (∀ (batch : List String) (offset : Nat),
        (batch_points batch offset).length ≤ batch.length
        ∧ ∀ p ∈ batch_points batch offset,
            offset ≤ p.id ∧ p.id < offset + (valid_texts batch).length) := by
  refine ⟨?_, ?_, ?_⟩
  · have hs := load_go_sorted chunks.length chunks 0
    have hmap : (run_point_ids chunks).Pairwise fun a b => a < b := by
      unfold run_point_ids run_points
      exact hs.map IngestPoint.id fun a b h => h
    exact hmap.imp Nat.ne_of_lt
  · intro batch offset idx p hp
    have := points_go_get offset (valid_texts batch) 0 idx p
      (valid_texts_not_empty batch) hp
    omega
  · intro batch offset
    constructor
    · calc (batch_points batch offset).length
          ≤ (valid_texts batch).length := points_go_length_le offset (valid_texts batch) 0
      _ ≤ batch.length := valid_texts_length_le batch
    · intro p hp
      exact batch_points_mem_bounds batch offset p hp

/-- Witness for C7's per-point clause at a concrete batch. -/
theorem c7_point_ids_witness :
    (run_point_ids ["alpha", "beta"]).Nodup
    ∧ ({ id := 8, page_content := "y" } : IngestPoint).id = 7 + 1 :=
  ⟨(c7_point_ids ["alpha", "beta"]).1,
   (c7_point_ids ["alpha", "beta"]).2.1 ["x", "y"] 7 1
     { id := 8, page_content := "y" } (by decide)⟩

/-! ## C8 -/

theorem ocr_go_length_le (outcome : Nat → OcrPageOutcome) :
    ∀ (fuel page_num : Nat) (documents : List ExtractedDoc),
      (ocr_go outcome fuel page_num documents).length ≤ documents.length + fuel := by
  intro fuel
  induction fuel with
  | zero => intro pn docs; simp [ocr_go]
  | succ fuel ih =>
    intro pn docs
    unfold ocr_go
    dsimp only
    cases outcome (pn + 1) with
    | error =>
      dsimp only
      by_cases h : 100 < pn + 1
      · rw [if_pos h]
        omega
      · rw [if_neg h]
        have := ih (pn + 1) docs
        omega
    | noImages =>
      dsimp only
      have := ih (pn + 1) docs
      omega
    | page text =>
      dsimp only
      by_cases h : (text.isEmpty || decide (text.length < 50)) = true
      · rw [if_pos h]
        have := ih (pn + 1) docs
        omega
      · rw [if_neg h]
        have := ih (pn + 1)
          (docs ++ [{ page_content := text, page := pn + 1, extraction_method := "ocr" }])
        rw [List.length_append] at this
        simp only [List.length_cons, List.length_nil] at this
        omega

theorem ocr_go_early_stop (outcome : Nat → OcrPageOutcome) (p : Nat)
    (herr : outcome p = OcrPageOutcome.error) (h100 : 100 < p) :
    ∀ (k page_num : Nat) (docs : List ExtractedDoc) (a : Nat),
      page_num < p → k = p - page_num - 1 → p - page_num ≤ a →
      ocr_go outcome a page_num docs = ocr_go outcome k page_num docs := by
  intro k
  induction k with
  | zero =>
    intro pn docs a hlt hk ha
    have hp : p = pn + 1 := by omega
    obtain ⟨a', rfl⟩ : ∃ a', a = a' + 1 := ⟨a - 1, by omega⟩
    subst hp
    unfold ocr_go
    dsimp only
    rw [herr, if_pos (by omega)]
  | succ k ih =>
    intro pn docs a hlt hk ha
    obtain ⟨a', rfl⟩ : ∃ a', a = a' + 1 := ⟨a - 1, by omega⟩
    have hlt' : pn + 1 < p := by omega
    unfold ocr_go
    dsimp only
    cases houtcome : outcome (pn + 1) with
    | error =>
      dsimp only
      by_cases hc : 100 < pn + 1
      · rw [if_pos hc, if_pos hc]
      · rw [if_neg hc, if_neg hc]
        exact ih (pn + 1) docs a' hlt' (by omega) (by omega)
    | noImages =>
      dsimp only
      exact ih (pn + 1) docs a' hlt' (by omega) (by omega)
    | page text =>
      dsimp only
      by_cases hc : (text.isEmpty || decide (text.length < 50)) = true
      · rw [if_pos hc, if_pos hc]
        exact ih (pn + 1) docs a' hlt' (by omega) (by omega)
      · rw [if_neg hc, if_neg hc]
        exact ih (pn + 1)
          (docs ++ [{ page_content := text, page := pn + 1, extraction_method := "ocr" }])
          a' hlt' (by omega) (by omega)

/-- C8 counterexample: a 150-page document every page of which OCRs
successfully is processed in full — 150 pages, not stopped at the claimed
100-page ceiling, because the 100-page check sits only inside the per-page
exception handler. -/
theorem c8_ocr_ceiling_counterexample :
    (extract_text_with_ocr 150 c8_all_good).length = 150
    ∧ ¬ ((extract_text_with_ocr 150 c8_all_good).length ≤ 100) := by
  exact ⟨by decide, by decide⟩

/-- C8 (amended): the per-page OCR loop always terminates, bounded by the
detected page count (at most one retained passage per detected page), and
the 100-page safety check applies only on the error path: when a page
beyond the 100th raises, processing stops early at that page and the
partial results gathered so far are kept (pages past the failing one are
never processed); error-free pages beyond 100 are still processed. -/
theorem c8_ocr_ceiling_amended (total_pages : Nat) (outcome : Nat → OcrPageOutcome) :
    (extract_text_with_ocr total_pages outcome).length ≤ total_pages
    ∧ ∀ p, 100 < p → p ≤ total_pages → outcome p = OcrPageOutcome.error →
        extract_text_with_ocr total_pages outcome = extract_text_with_ocr (p - 1) outcome := by
  constructor
  · have := ocr_go_length_le outcome total_pages 0 []
    simpa using this
  · intro p h100 hple herr
    unfold extract_text_with_ocr
    exact ocr_go_early_stop outcome p herr h100 (p - 1) 0 [] total_pages
      (by omega) (by omega) (by omega)

/-- Witness for C8's amended theorem: page 101 raises, pages beyond it are
never processed, so a 120-page run equals the 100-page run. -/
theorem c8_ocr_ceiling_amended_witness :
    (extract_text_with_ocr 120 c8_outcome).length ≤ 120
    ∧ extract_text_with_ocr 120 c8_outcome = extract_text_with_ocr 100 c8_outcome :=
  ⟨(c8_ocr_ceiling_amended 120 c8_outcome).1,
   (c8_ocr_ceiling_amended 120 c8_outcome).2 101 (by omega) (by omega) (by rfl)⟩
